import Mathlib

/-
Verification of the Bronze-layer ingestion pipeline
(`src/python_script/01_Bronze_Layer_Data_Ingestion.py`) against its
natural-language specification.

The notebook's PySpark dataframes are embedded shallowly: a `RowSet` is a
list of rows, a row an association list from column name to an optional
typed value (`none` = SQL null).  Pandas floating-point division (used by
`data_quality_check` for the null percentages) is modelled by `PFloat`,
which keeps the NaN/Inf results that numpy produces on division by zero.
-/

namespace Bronze

/-- Logical column types of the spec's data model (`Text, Integer, Decimal,
Date, Boolean`), matching the Spark types used in the notebook
(`StringType, IntegerType, DoubleType, DateType, BooleanType`). -/
inductive LogicalType where
  | text
  | integer
  | decimal
  | date
  | boolean
deriving DecidableEq, Repr

/-- A `StructField(name, type, nullable)` of the notebook's schemas. -/
structure ColumnSpec where
  name : String
  logicalType : LogicalType
  nullable : Bool
deriving DecidableEq, Repr

/-- A `StructType`: ordered sequence of column specs. -/
abbrev TableSchema := List ColumnSpec

/-- A typed field value.  `timestamp` carries the ingestion instant added by
the lineage enricher. -/
inductive Value where
  | text (s : String)
  | integer (n : Int)
  | decimal (q : ℚ)
  | date (y m d : Nat)
  | boolean (b : Bool)
  | timestamp (t : Nat)
deriving DecidableEq, Repr

/-- A cell is a typed value or SQL null. -/
abbrev Cell := Option Value

/-- A row: association list from column name to cell, in schema order. -/
abbrev Row := List (String × Cell)

/-- A dataframe: column names plus rows. -/
structure RowSet where
  columns : List String
  rows : List Row
deriving DecidableEq, Repr

/-- Cell of row `r` in column `c`; a missing key reads as null. -/
def cellOf (r : Row) (c : String) : Cell :=
  (r.lookup c).join

/-- `stores_schema` from the notebook, verbatim. -/
def stores_schema : TableSchema :=
  [⟨"store_id", .text, false⟩,
   ⟨"store_name", .text, true⟩,
   ⟨"city", .text, true⟩,
   ⟨"store_type", .text, true⟩,
   ⟨"size_category", .text, true⟩,
   ⟨"size_sqm", .integer, true⟩,
   ⟨"opening_date", .date, true⟩,
   ⟨"is_active", .boolean, true⟩]

/-- `products_schema` from the notebook, verbatim. -/
def products_schema : TableSchema :=
  [⟨"product_id", .text, false⟩,
   ⟨"product_name", .text, true⟩,
   ⟨"brand", .text, true⟩,
   ⟨"category", .text, true⟩,
   ⟨"gender", .text, true⟩,
   ⟨"season", .text, true⟩,
   ⟨"price", .decimal, true⟩,
   ⟨"cost", .decimal, true⟩,
   ⟨"size_range", .text, true⟩,
   ⟨"color_options", .integer, true⟩,
   ⟨"launch_date", .date, true⟩,
   ⟨"is_active", .boolean, true⟩]

/-- `customers_schema` from the notebook, verbatim. -/
def customers_schema : TableSchema :=
  [⟨"customer_id", .text, false⟩,
   ⟨"first_name", .text, true⟩,
   ⟨"last_name", .text, true⟩,
   ⟨"email", .text, true⟩,
   ⟨"age", .integer, true⟩,
   ⟨"gender", .text, true⟩,
   ⟨"city", .text, true⟩,
   ⟨"registration_date", .date, true⟩,
   ⟨"customer_segment", .text, true⟩,
   ⟨"loyalty_member", .boolean, true⟩,
   ⟨"is_active", .boolean, true⟩]

/-- `sales_schema` from the notebook, verbatim. -/
def sales_schema : TableSchema :=
  [⟨"transaction_id", .text, false⟩,
   ⟨"transaction_date", .date, true⟩,
   ⟨"transaction_time", .text, true⟩,
   ⟨"store_id", .text, true⟩,
   ⟨"product_id", .text, true⟩,
   ⟨"customer_id", .text, true⟩,
   ⟨"quantity", .integer, true⟩,
   ⟨"unit_price", .decimal, true⟩,
   ⟨"discount_percent", .integer, true⟩,
   ⟨"discount_amount", .decimal, true⟩,
   ⟨"total_amount", .decimal, true⟩,
   ⟨"payment_method", .text, true⟩,
   ⟨"channel", .text, true⟩]

/-- The four registered dataset kinds. -/
inductive DatasetKind where
  | stores
  | products
  | customers
  | sales
deriving DecidableEq, Repr

/-- Schema registry lookup: each dataset kind maps to its fixed schema. -/
def getSchema : DatasetKind → TableSchema
  | .stores => stores_schema
  | .products => products_schema
  | .customers => customers_schema
  | .sales => sales_schema

/-- A delimited source file: the header row (required) and the data lines,
each already split into fields by the delimiter. -/
structure Csv where
  header : List String
  dataLines : List (List String)

/-- Value of a decimal digit character, if it is one. -/
def digit? (c : Char) : Option Nat :=
  if c.toNat ≥ 48 ∧ c.toNat ≤ 57 then some (c.toNat - 48) else none

/-- Accumulate the value of a digit string; fails on any non-digit. -/
def digitsVal : List Char → Nat → Option Nat
  | [], acc => some acc
  | c :: rest, acc =>
    match digit? c with
    | some d => digitsVal rest (acc * 10 + d)
    | none => none

/-- Natural-number parse of a non-empty all-digit character list. -/
def parseNatChars? : List Char → Option Nat
  | [] => none
  | c :: rest => digitsVal (c :: rest) 0

/-- Integer parse with optional leading minus sign. -/
def parseIntChars? : List Char → Option Int
  | [] => none
  | c :: rest =>
    if c = '-' then (parseNatChars? rest).map (fun n => -(n : Int))
    else (parseNatChars? (c :: rest)).map (fun n => (n : Int))

/-- Split a character list on a separator character. -/
def splitChars (sep : Char) : List Char → List (List Char)
  | [] => [[]]
  | c :: rest =>
    match splitChars sep rest with
    | [] => [[]]
    | cur :: done => if c = sep then [] :: cur :: done else (c :: cur) :: done

/-- ASCII lower-casing of one character. -/
def lowerChar (c : Char) : Char :=
  if c.toNat ≥ 65 ∧ c.toNat ≤ 90 then Char.ofNat (c.toNat + 32) else c

/-- ASCII lower-casing of a string (models Python lower()). -/
def lowerStr (s : String) : String :=
  ⟨s.toList.map lowerChar⟩

/-- Boolean parsing: fixed token set, case-insensitive. -/
def parseBool? (s : String) : Option Bool :=
  if lowerStr s = "true" then some true
  else if lowerStr s = "false" then some false
  else none

/-- Date parsing in the single fixed `YYYY-MM-DD` format. -/
def parseDate? (s : String) : Option Value :=
  match splitChars (Char.ofNat 45) s.toList with
  | [y, m, d] =>
    match parseNatChars? y, parseNatChars? m, parseNatChars? d with
    | some yn, some mn, some dn => some (.date yn mn dn)
    | _, _, _ => none
  | _ => none

/-- Unsigned decimal parsing: digits with an optional fractional part. -/
def parseUnsignedDecimal? (cs : List Char) : Option ℚ :=
  match splitChars (Char.ofNat 46) cs with
  | [a] => (parseNatChars? a).map (fun n => (n : ℚ))
  | [a, b] =>
    match parseNatChars? a, parseNatChars? b with
    | some n, some f => some ((n : ℚ) + (f : ℚ) / ((10 : ℚ) ^ b.length))
    | _, _ => none
  | _ => none

/-- Decimal parsing with optional leading minus sign. -/
def parseDecimal? (s : String) : Option ℚ :=
  match s.toList with
  | [] => none
  | c :: rest =>
    if c = '-' then (parseUnsignedDecimal? rest).map Neg.neg
    else (parseUnsignedDecimal? (c :: rest)).map id

/-- Field coercion under a declared logical type: an absent field or an
empty field is null, a value that fails the type's parse becomes null
(the strict reference behavior of the schema-with-inferSchema-false
reader: malformed fields are nulled in place, the row is kept). -/
def coerce (t : LogicalType) (field : Option String) : Cell :=
  match field with
  | none => none
  | some s =>
    if s = "" then none
    else
      match t with
      | .text => some (.text s)
      | .integer => (parseIntChars? s.toList).map .integer
      | .decimal => (parseDecimal? s).map .decimal
      | .date => parseDate? s
      | .boolean => (parseBool? s).map .boolean

/-- Parse one data line against the schema: columns are matched to fields
positionally; a missing trailing field reads as null. -/
def parseRow : TableSchema → List String → Row
  | [], _ => []
  | spec :: rest, fields =>
    (spec.name, coerce spec.logicalType fields.head?) :: parseRow rest fields.tail

/-- Modelled from the spec: the typed read of section 4.2.  The notebook
configures Spark's CSV reader (`header=true`, `inferSchema=false`, declared
schema); the reader machinery itself is external, so its reference behavior
is taken from the spec: the header is excluded, every data line becomes
exactly one row, and each field is coerced to its declared type with
malformed fields nulled in place. -/
def read (csv : Csv) (schema : TableSchema) : RowSet :=
  { columns := schema.map ColumnSpec.name
    rows := csv.dataLines.map (parseRow schema) }

theorem parseRow_length (schema : TableSchema) (fields : List String) :
    (parseRow schema fields).length = schema.length := by
  induction schema generalizing fields with
  | nil => rfl
  | cons spec rest ih => simp [parseRow, ih]

theorem parseRow_getElem? (schema : TableSchema) (fields : List String) (i : Nat) :
    (parseRow schema fields)[i]? =
      (schema[i]?).map
        (fun spec => (spec.name, coerce spec.logicalType fields[i]?)) := by
  induction schema generalizing fields i with
  | nil => simp [parseRow]
  | cons spec rest ih =>
    cases i with
    | zero => cases fields <;> simp [parseRow]
    | succ i => cases fields <;> simp [parseRow, ih]

/-- Result of a pandas/numpy floating-point computation, keeping the NaN
and Inf values that numpy true division produces on a zero denominator. -/
inductive PFloat where
  | nan
  | inf
  | val (q : ℚ)
deriving DecidableEq, Repr

/-- numpy true division: 0/0 is NaN, k/0 for k ≠ 0 is Inf (a warning is
printed, no exception is raised). -/
def pdiv (a b : ℚ) : PFloat :=
  if b = 0 then (if a = 0 then .nan else .inf) else .val (a / b)

/-- Multiplication by 100 lifted to pandas floats. -/
def pmul100 : PFloat → PFloat
  | .nan => .nan
  | .inf => .inf
  | .val q => .val (q * 100)

/-- Floor of a rational as an integer (floor division of numerator by
denominator). -/
def ratFloor (q : ℚ) : ℤ :=
  Int.fdiv q.num (q.den : ℤ)

/-- Round to the nearest integer, ties to even (numpy rounding). -/
def roundHalfEven (q : ℚ) : ℤ :=
  if q - (ratFloor q : ℚ) < 1 / 2 then ratFloor q
  else if q - (ratFloor q : ℚ) > 1 / 2 then ratFloor q + 1
  else if ratFloor q % 2 = 0 then ratFloor q else ratFloor q + 1

/-- pandas Series round to 2 decimal places. -/
def round2 (q : ℚ) : ℚ :=
  (roundHalfEven (q * 100) : ℚ) / 100

/-- Rounding to 2 decimals lifted to pandas floats (NaN and Inf are kept). -/
def pround2 : PFloat → PFloat
  | .nan => .nan
  | .inf => .inf
  | .val q => .val (round2 q)

/-- Null count of a column: length of the filter keeping the rows whose
cell in that column is null (the Spark expression
count(when(col(c).isNull(), c))). -/
def nullCount (rows : List Row) (c : String) : Nat :=
  (rows.filter (fun r => (cellOf r c).isNone)).length

/-- Independent statement of "column c contains exactly k null values":
occurrence count of null among the column's cells. -/
def nullsIn (rows : List Row) (c : String) : Nat :=
  (rows.map (fun r => cellOf r c)).count none

/-- Distinct count of a column, as the notebook computes it:
df.select(col).distinct().count(); a null cell counts as a value. -/
def distinctCount (rows : List Row) (c : String) : Nat :=
  ((rows.map (fun r => cellOf r c)).dedup).length

/-- Independent statement of the set of distinct values of a column. -/
def distinctValues (rows : List Row) (c : String) : Finset Cell :=
  (rows.map (fun r => cellOf r c)).toFinset

/-- Substring test for "id" on a character list. -/
def hasIdSub : List Char → Bool
  | c1 :: c2 :: rest =>
    if c1 = 'i' ∧ c2 = 'd' then true else hasIdSub (c2 :: rest)
  | _ => false

/-- The notebook's identifier-likeness test: 'id' in col_name.lower(). -/
def isIdLike (name : String) : Bool :=
  hasIdSub (lowerStr name).toList

/-- The notebook's gate on the distinct-count block: 'store_id' in
df.columns or 'product_id' in df.columns or 'customer_id' in df.columns. -/
def hasKeyColumns (columns : List String) : Bool :=
  columns.contains "store_id" || columns.contains "product_id" ||
    columns.contains "customer_id"

/-- The values computed by the notebook's quality report (printing
dropped). -/
structure QualityReport where
  totalRows : Nat
  nullCounts : List (String × Nat)
  nullPercents : List (String × PFloat)
  distinctCounts : List (String × Nat)
deriving DecidableEq, Repr

/-- The computation of the notebook's data_quality_check: total row count,
per-column null counts, per-column null percentages
((nullCount / total_rows * 100) rounded to 2 decimals, by pandas float
arithmetic), and, only when one of the three key columns is present,
distinct counts for every column whose lower-cased name contains "id". -/
def data_quality_check (rs : RowSet) : QualityReport :=
  let total := rs.rows.length
  { totalRows := total
    nullCounts := rs.columns.map (fun c => (c, nullCount rs.rows c))
    nullPercents := rs.columns.map (fun c =>
      (c, pround2 (pmul100 (pdiv (nullCount rs.rows c : ℚ) (total : ℚ)))))
    distinctCounts :=
      if hasKeyColumns rs.columns then
        (rs.columns.filter (fun c => isIdLike c)).map
          (fun c => (c, distinctCount rs.rows c))
      else [] }

theorem lookup_map_of_mem {β : Type} (f : String → β) (l : List String)
    (c : String) (hc : c ∈ l) :
    (l.map (fun x => (x, f x))).lookup c = some (f c) := by
  induction l with
  | nil => cases hc
  | cons x xs ih =>
    by_cases h : c = x
    · subst h
      simp [List.lookup]
    · have hb : (c == x) = false := by simp [h]
      have hm : c ∈ xs := by
        rcases List.mem_cons.mp hc with h1 | h1
        · exact absurd h1 h
        · exact h1
      simp [List.lookup, hb, ih hm]

theorem lookup_map_of_not_mem {β : Type} (f : String → β) (l : List String)
    (c : String) (hc : c ∉ l) :
    (l.map (fun x => (x, f x))).lookup c = none := by
  induction l with
  | nil => rfl
  | cons x xs ih =>
    have h : c ≠ x := fun h => hc (h ▸ List.mem_cons_self x xs)
    have hb : (c == x) = false := by simp [h]
    have hm : c ∉ xs := fun h => hc (List.mem_cons_of_mem x h)
    simp [List.lookup, hb, ih hm]

theorem nullCount_eq_nullsIn (rows : List Row) (c : String) :
    nullCount rows c = nullsIn rows c := by
  induction rows with
  | nil => rfl
  | cons r rest ih =>
    simp only [nullCount, nullsIn] at *
    cases h : cellOf r c <;>
      simp [List.filter_cons, List.count_cons, h, ih]

theorem distinctCount_eq_card (rows : List Row) (c : String) :
    distinctCount rows c = (distinctValues rows c).card := by
  rw [distinctCount, distinctValues, List.card_toFinset]

/-- The notebook's metadata enrichment:
withColumn("ingestion_timestamp", current_timestamp()) followed by
withColumn("source_file", lit(name)).  Spark's current_timestamp()
evaluates once per query to the query-start instant, so the timestamp is a
single parameter shared by every row of the invocation. -/
def enrich (rs : RowSet) (ts : Nat) (sourceFileName : String) : RowSet :=
  { columns := rs.columns ++ ["ingestion_timestamp", "source_file"]
    rows := rs.rows.map (fun r =>
      r ++ [("ingestion_timestamp", some (.timestamp ts)),
            ("source_file", some (.text sourceFileName))]) }

/-- Modelled from the spec: the versioned table storage behind Delta Lake
saveAsTable is external to src, so only the visible content per table name
is modelled; a write in overwrite mode (the notebook always passes
mode("overwrite") with overwriteSchema) atomically replaces the named
table's visible content. -/
def TableStore : Type :=
  String → Option (List Row)

/-- Overwrite write: the named table's visible content becomes exactly the
written rows; other tables are untouched. -/
def writeTable (st : TableStore) (tableName : String) (rows : List Row) :
    TableStore :=
  fun n => if n = tableName then some rows else st n

/-- Row count a read-back of the named table returns
(SELECT COUNT(*) FROM tableName). -/
def tableRowCount (st : TableStore) (tableName : String) : Nat :=
  ((st tableName).getD []).length

/-- Outcome of the post-write verification: either the re-read count, or a
VerificationMismatch surfaced as a warning that still carries the count
(non-fatal: it is a returned value, nothing is raised). -/
inductive VerifyOutcome where
  | ok (rowCount : Nat)
  | mismatchWarning (rowCount : Nat)
deriving DecidableEq, Repr

/-- Modelled from the spec: the notebook's Step 9 only re-reads each
table's row count; the expectedMinRows comparison and the
VerificationMismatch warning of the spec's Verifier are not in src, so they
follow the spec's words: the verification fails with VerificationMismatch
exactly when the re-read row count is strictly below expectedMinRows. -/
def verify (st : TableStore) (tableName : String) (expectedMinRows : Nat) :
    VerifyOutcome :=
  if tableRowCount st tableName < expectedMinRows then
    .mismatchWarning (tableRowCount st tableName)
  else
    .ok (tableRowCount st tableName)

/-- Modelled from the spec: the physical partition layout produced by
partitionBy (the storage engine is external to src) — storage organized by
the partition column's distinct values, logical row content unaffected. -/
structure PartitionedTable where
  partitionColumn : String
  partitions : List (Cell × List Row)
deriving DecidableEq, Repr

/-- Partitioned overwrite write: one partition per distinct value of the
partition column, holding exactly the input rows carrying that value. -/
def writePartitioned (rows : List Row) (pcol : String) : PartitionedTable :=
  { partitionColumn := pcol
    partitions := ((rows.map (fun r => cellOf r pcol)).dedup).map
      (fun v => (v, rows.filter (fun r => cellOf r pcol = v))) }

theorem flatten_filter_perm {α β : Type} [DecidableEq α] [DecidableEq β]
    (key : α → β) :
    ∀ (vs : List β) (l : List α), vs.Nodup → (∀ x ∈ l, key x ∈ vs) →
      ((vs.map (fun v => l.filter (fun x => key x = v))).flatten).Perm l := by
  intro vs
  induction vs with
  | nil =>
    intro l _ hcov
    cases l with
    | nil => rfl
    | cons a t => exact absurd (hcov a (List.mem_cons_self a t)) (by simp)
  | cons v rest ih =>
    intro l hnd hcov
    have hrest : ∀ w ∈ rest,
        l.filter (fun x => decide (key x = w)) =
          (l.filter (fun x => !decide (key x = v))).filter
            (fun x => decide (key x = w)) := by
      intro w hw
      rw [List.filter_filter]
      refine (List.filter_congr ?_).symm
      intro x _
      by_cases hx : key x = w
      · have hwv : ¬ w = v := by
          intro h
          exact (List.nodup_cons.mp hnd).1 (h ▸ hw)
        have hxv : ¬ key x = v := fun h => hwv (hx.symm.trans h)
        simp [hx, hxv, hwv]
      · simp [hx]
    have hmap : rest.map (fun w => l.filter (fun x => decide (key x = w))) =
        rest.map (fun w =>
          (l.filter (fun x => !decide (key x = v))).filter
            (fun x => decide (key x = w))) :=
      List.map_congr_left hrest
    have hcov' : ∀ x ∈ l.filter (fun x => !decide (key x = v)),
        key x ∈ rest := by
      intro x hx
      have hxl := List.mem_filter.mp hx
      have hxv : ¬ key x = v := by
        have := hxl.2
        simpa using this
      rcases List.mem_cons.mp (hcov x hxl.1) with h | h
      · exact absurd h hxv
      · exact h
    have hperm := ih (l.filter (fun x => !decide (key x = v)))
      (List.nodup_cons.mp hnd).2 hcov'
    rw [List.map_cons, List.flatten_cons, hmap]
    exact (List.Perm.append_left _ hperm).trans (List.filter_append_perm _ l)

end Bronze

namespace Bronze

/-- C9: each registered dataset kind's schema has the declared column count
(Stores 8, Products 12, Customers 11, Sales 13) and lists its columns in the
declared order. -/
theorem getSchema_matches_declared_columns :
    (getSchema .stores).length = 8 ∧
    (getSchema .products).length = 12 ∧
    (getSchema .customers).length = 11 ∧
    (getSchema .sales).length = 13 ∧
    (getSchema .stores).map ColumnSpec.name =
      ["store_id", "store_name", "city", "store_type", "size_category",
       "size_sqm", "opening_date", "is_active"] ∧
    (getSchema .products).map ColumnSpec.name =
      ["product_id", "product_name", "brand", "category", "gender", "season",
       "price", "cost", "size_range", "color_options", "launch_date",
       "is_active"] ∧
    (getSchema .customers).map ColumnSpec.name =
      ["customer_id", "first_name", "last_name", "email", "age", "gender",
       "city", "registration_date", "customer_segment", "loyalty_member",
       "is_active"] ∧
    (getSchema .sales).map ColumnSpec.name =
      ["transaction_id", "transaction_date", "transaction_time", "store_id",
       "product_id", "customer_id", "quantity", "unit_price",
       "discount_percent", "discount_amount", "total_amount",
       "payment_method", "channel"] := by
  decide

/-- C1: reading a delimited source against a schema yields one row per data
line (header excluded, count exact, the read never aborts), each row carries
one cell per schema column, and a field that fails coercion to its declared
logical type becomes null in place while the row is kept. -/
theorem read_strict_nulls_in_place (csv : Csv) (schema : TableSchema) :
    (read csv schema).rows.length = csv.dataLines.length ∧
    (∀ (j : Nat) (fields : List String), csv.dataLines[j]? = some fields →
      (read csv schema).rows[j]? = some (parseRow schema fields)) ∧
    (∀ fields, (parseRow schema fields).length = schema.length) ∧
    (∀ (fields : List String) (i : Nat) (spec : ColumnSpec),
      schema[i]? = some spec →
      coerce spec.logicalType fields[i]? = none →
      (parseRow schema fields)[i]? = some (spec.name, none)) := by
  refine ⟨by simp [read], ?_, fun fields => parseRow_length schema fields, ?_⟩
  · intro j fields hj
    simp [read, List.getElem?_map, hj]
  · intro fields i spec hspec hfail
    rw [parseRow_getElem?, hspec]
    simp [hfail]

/-- Concrete data line whose `size_sqm` field is not a valid integer. -/
def badStoreLine : List String :=
  ["S2", "Store B", "Hamburg", "Outlet", "L", "abc", "2023-02-20", "true"]

/-- Concrete stores source: two data lines, the second with a malformed
`size_sqm` field. -/
def storesCsvEx : Csv :=
  { header := ["store_id", "store_name", "city", "store_type",
               "size_category", "size_sqm", "opening_date", "is_active"]
    dataLines :=
      [["S1", "Store A", "Berlin", "City", "M", "450", "2023-01-15", "true"],
       badStoreLine] }

theorem read_strict_nulls_in_place_witness :
    (read storesCsvEx stores_schema).rows.length = 2 ∧
    (parseRow stores_schema badStoreLine)[5]? = some ("size_sqm", none) :=
  ⟨(read_strict_nulls_in_place storesCsvEx stores_schema).1,
   (read_strict_nulls_in_place storesCsvEx stores_schema).2.2.2 badStoreLine 5
     ⟨"size_sqm", .integer, true⟩ (by decide) (by decide)⟩

/-- C2: on a non-empty RowSet, for every column c of the RowSet containing
exactly k nulls out of N rows, the quality report gives nullCounts[c] = k
and nullPercents[c] = round(k / N * 100, 2 decimal places). -/
theorem audit_null_accounting (rs : RowSet) (c : String) (k : Nat)
    (hc : c ∈ rs.columns) (hN : 0 < rs.rows.length)
    (hk : nullsIn rs.rows c = k) :
    (data_quality_check rs).nullCounts.lookup c = some k ∧
    (data_quality_check rs).nullPercents.lookup c =
      some (PFloat.val (round2 ((k : ℚ) / (rs.rows.length : ℚ) * 100))) := by
  have hnc : nullCount rs.rows c = k := by
    rw [nullCount_eq_nullsIn, hk]
  constructor
  · show (rs.columns.map (fun x => (x, nullCount rs.rows x))).lookup c = _
    rw [lookup_map_of_mem _ _ _ hc, hnc]
  · show (rs.columns.map (fun x =>
      (x, pround2 (pmul100 (pdiv (nullCount rs.rows x : ℚ)
        (rs.rows.length : ℚ)))))).lookup c = _
    rw [lookup_map_of_mem _ _ _ hc, hnc]
    have hz : (rs.rows.length : ℚ) ≠ 0 := by
      exact_mod_cast Nat.pos_iff_ne_zero.mp hN
    simp [pdiv, hz, pmul100, pround2]

/-- Concrete three-row RowSet with one null in size_sqm. -/
def rsNullEx : RowSet :=
  { columns := ["store_id", "size_sqm"]
    rows :=
      [[("store_id", some (.text "S1")), ("size_sqm", some (.integer 450))],
       [("store_id", some (.text "S2")), ("size_sqm", none)],
       [("store_id", some (.text "S3")), ("size_sqm", some (.integer 300))]] }

theorem audit_null_accounting_witness :
    (data_quality_check rsNullEx).nullCounts.lookup "size_sqm" = some 1 ∧
    (data_quality_check rsNullEx).nullPercents.lookup "size_sqm" =
      some (PFloat.val (round2 (((1 : Nat) : ℚ) /
        ((rsNullEx.rows.length : Nat) : ℚ) * 100))) :=
  audit_null_accounting rsNullEx "size_sqm" 1 (by decide) (by decide)
    (by decide)

/-- Empty RowSet over a single column, for the zero-row audit. -/
def rsEmptyEx : RowSet :=
  { columns := ["c"], rows := [] }

/-- C3 counterexample: on a RowSet with zero rows the notebook divides the
null counts by total_rows = 0 anyway; pandas yields NaN for that 0/0, so
the reported percent is NaN, not 0. -/
theorem audit_zero_rows_counterexample :
    (data_quality_check rsEmptyEx).nullPercents.lookup "c" =
      some PFloat.nan ∧
    some PFloat.nan ≠ some (PFloat.val 0) := by
  decide

/-- C3 amended: for a RowSet with totalRows = 0, every column's reported
null percentage is NaN — the computation does divide by zero (numpy turns
the 0/0 into NaN rather than raising). -/
theorem audit_zero_rows_nan (rs : RowSet) (c : String)
    (hc : c ∈ rs.columns) (h0 : rs.rows.length = 0) :
    (data_quality_check rs).nullPercents.lookup c = some PFloat.nan := by
  have hrows : rs.rows = [] := List.length_eq_zero.mp h0
  show (rs.columns.map (fun x =>
    (x, pround2 (pmul100 (pdiv (nullCount rs.rows x : ℚ)
      (rs.rows.length : ℚ)))))).lookup c = _
  rw [lookup_map_of_mem _ _ _ hc, hrows]
  simp [nullCount, pdiv, pmul100, pround2]

theorem audit_zero_rows_nan_witness :
    (data_quality_check { columns := ["x", "y"], rows := [] }
      : QualityReport).nullPercents.lookup "y" = some PFloat.nan :=
  audit_zero_rows_nan { columns := ["x", "y"], rows := [] } "y"
    (by decide) (by decide)

/-- Single-column RowSet whose only identifier-like column is
transaction_id. -/
def rsTxnEx : RowSet :=
  { columns := ["transaction_id"]
    rows := [[("transaction_id", some (.text "T1"))]] }

/-- C5 counterexample: transaction_id is identifier-like (its name contains
"id"), yet on a RowSet whose columns include none of store_id, product_id,
customer_id the notebook's gate skips the distinct-count block entirely, so
no distinct count is reported for transaction_id (the claim demands one). -/
theorem audit_distinct_gate_counterexample :
    isIdLike "transaction_id" = true ∧
    (data_quality_check rsTxnEx).distinctCounts = [] ∧
    (data_quality_check rsTxnEx).distinctCounts.lookup "transaction_id" =
      none := by
  decide

/-- C5 amended: provided the RowSet's columns include at least one of
store_id, product_id, customer_id, the quality report carries a
distinct-value count for exactly the columns whose lower-cased name
contains "id", and each reported count equals the number of distinct values
(nulls included) in that column. -/
theorem audit_distinct_counts (rs : RowSet) (c : String)
    (hgate : hasKeyColumns rs.columns = true) (hc : c ∈ rs.columns) :
    (isIdLike c = true →
      (data_quality_check rs).distinctCounts.lookup c =
        some (distinctValues rs.rows c).card) ∧
    (isIdLike c = false →
      (data_quality_check rs).distinctCounts.lookup c = none) := by
  have hd : (data_quality_check rs).distinctCounts =
      (rs.columns.filter (fun x => isIdLike x)).map
        (fun x => (x, distinctCount rs.rows x)) := by
    show (if hasKeyColumns rs.columns then _ else _) = _
    rw [if_pos hgate]
  constructor
  · intro hid
    have hcf : c ∈ rs.columns.filter (fun x => isIdLike x) :=
      List.mem_filter.mpr ⟨hc, hid⟩
    rw [hd, lookup_map_of_mem _ _ _ hcf, distinctCount_eq_card]
  · intro hid
    have hcf : c ∉ rs.columns.filter (fun x => isIdLike x) := by
      intro hmem
      have := (List.mem_filter.mp hmem).2
      rw [hid] at this
      cases this
    rw [hd, lookup_map_of_not_mem _ _ _ hcf]

/-- RowSet whose store_id column holds the values A, A, B, C. -/
def rsDistinctEx : RowSet :=
  { columns := ["store_id"]
    rows :=
      [[("store_id", some (.text "A"))],
       [("store_id", some (.text "A"))],
       [("store_id", some (.text "B"))],
       [("store_id", some (.text "C"))]] }

theorem audit_distinct_counts_witness :
    (data_quality_check rsDistinctEx).distinctCounts.lookup "store_id" =
      some (distinctValues rsDistinctEx.rows "store_id").card ∧
    (distinctValues rsDistinctEx.rows "store_id").card = 3 :=
  ⟨(audit_distinct_counts rsDistinctEx "store_id" (by decide)
      (by decide)).1 (by decide),
   by decide⟩

/-- C10: the distinct-count block runs only when the RowSet's columns
include at least one of store_id, product_id, customer_id; without them the
report carries no distinct count for any column. -/
theorem audit_distinct_requires_key_column (rs : RowSet) (c : String)
    (h1 : "store_id" ∉ rs.columns) (h2 : "product_id" ∉ rs.columns)
    (h3 : "customer_id" ∉ rs.columns) :
    (data_quality_check rs).distinctCounts = [] ∧
    (data_quality_check rs).distinctCounts.lookup c = none := by
  have hg : hasKeyColumns rs.columns = false := by
    simp [hasKeyColumns, h1, h2, h3]
  have hd : (data_quality_check rs).distinctCounts = [] := by
    show (if hasKeyColumns rs.columns then _ else _) = _
    rw [hg]
    simp
  exact ⟨hd, by rw [hd]; rfl⟩

/-- C6: enrichment leaves every existing column of every row unchanged and
appends exactly two fields — an ingestion timestamp captured once per
invocation and therefore identical across all rows of the RowSet, and the
literal source file name. -/
theorem enrich_appends_metadata (rs : RowSet) (ts : Nat) (f : String) :
    (enrich rs ts f).rows.length = rs.rows.length ∧
    (enrich rs ts f).columns =
      rs.columns ++ ["ingestion_timestamp", "source_file"] ∧
    (∀ (i : Nat) (r : Row), rs.rows[i]? = some r →
      (enrich rs ts f).rows[i]? =
        some (r ++ [("ingestion_timestamp", some (.timestamp ts)),
                    ("source_file", some (.text f))])) := by
  refine ⟨by simp [enrich], rfl, ?_⟩
  intro i r hi
  simp [enrich, List.getElem?_map, hi]

/-- One-row RowSet used to instantiate the enrichment theorem. -/
def rsEnrichEx : RowSet :=
  { columns := ["store_id"], rows := [[("store_id", some (.text "S1"))]] }

theorem enrich_appends_metadata_witness :
    (enrich rsEnrichEx 42 "stores.csv").rows[0]? =
      some [("store_id", some (.text "S1")),
            ("ingestion_timestamp", some (.timestamp 42)),
            ("source_file", some (.text "stores.csv"))] :=
  (enrich_appends_metadata rsEnrichEx 42 "stores.csv").2.2 0
    [("store_id", some (.text "S1"))] (by decide)

/-- C7: writing the same RowSet twice in succession to the same table name
is idempotent — the verified (re-read) row count equals the written row
count after the first write and again after the second; the overwrite
replaces the visible content instead of accumulating rows. -/
theorem write_overwrite_idempotent (st : TableStore) (tableName : String)
    (rows : List Row) :
    tableRowCount (writeTable st tableName rows) tableName = rows.length ∧
    tableRowCount
      (writeTable (writeTable st tableName rows) tableName rows)
      tableName = rows.length := by
  constructor <;> simp [tableRowCount, writeTable]

/-- C4: the post-write verification yields VerificationMismatch exactly
when the re-read row count is strictly below expectedMinRows, and yields
the plain count otherwise; either way the outcome is a returned value
carrying the count (a non-fatal data-integrity warning, not an abort). -/
theorem verify_mismatch_iff (st : TableStore) (tableName : String)
    (expectedMinRows : Nat) :
    (verify st tableName expectedMinRows =
        VerifyOutcome.mismatchWarning (tableRowCount st tableName) ↔
      tableRowCount st tableName < expectedMinRows) ∧
    (verify st tableName expectedMinRows =
        VerifyOutcome.ok (tableRowCount st tableName) ↔
      ¬ tableRowCount st tableName < expectedMinRows) := by
  by_cases h : tableRowCount st tableName < expectedMinRows <;>
    simp [verify, h]

/-- C8: a partitioned write (the Sales write partitions by
transaction_date) produces exactly one physical partition per distinct
value of the partition column present in the input, and the partitions
together hold precisely the input rows — total row count preserved, no
row's logical content changed. -/
theorem writePartitioned_partitions_correct (rows : List Row)
    (pcol : String) :
    (writePartitioned rows pcol).partitions.map Prod.fst =
      (rows.map (fun r => cellOf r pcol)).dedup ∧
    (((writePartitioned rows pcol).partitions.map Prod.snd).flatten).Perm
      rows ∧
    ((writePartitioned rows pcol).partitions.map
      (fun p => p.2.length)).sum = rows.length := by
  have hcov : ∀ x ∈ rows, (fun r => cellOf r pcol) x ∈
      (rows.map (fun r => cellOf r pcol)).dedup := by
    intro x hx
    rw [List.mem_dedup]
    exact List.mem_map_of_mem _ hx
  have hperm : (((writePartitioned rows pcol).partitions.map
      Prod.snd).flatten).Perm rows := by
    have h := flatten_filter_perm (fun r => cellOf r pcol)
      ((rows.map (fun r => cellOf r pcol)).dedup) rows
      (List.nodup_dedup _) hcov
    simpa [writePartitioned, List.map_map, Function.comp] using h
  refine ⟨by simp [writePartitioned, List.map_map, Function.comp_def],
    hperm, ?_⟩
  have hlen := hperm.length_eq
  rw [List.length_flatten] at hlen
  simpa [List.map_map, Function.comp] using hlen

theorem audit_distinct_requires_key_column_witness :
    (data_quality_check { columns := ["transaction_id", "amount"], rows := [] }
      : QualityReport).distinctCounts = [] ∧
    (data_quality_check { columns := ["transaction_id", "amount"], rows := [] }
      : QualityReport).distinctCounts.lookup "transaction_id" = none :=
  audit_distinct_requires_key_column
    { columns := ["transaction_id", "amount"], rows := [] }
    "transaction_id" (by decide) (by decide) (by decide)

end Bronze
